import Mathlib

/-!
Shallow embedding of the fund-screener metrics pipeline
(src/models.py, src/processor.py, src/signals.py) and proofs about it.

Conventions of the embedding:
* Calendar dates are day ordinals (ℕ); larger means later.
* Finite float64 values are rationals (ℚ); a missing value (float NaN, or
  Python None held in a pandas object column) is `none` in `Option ℚ`.
  The input price fields are finite reals per the data model, so float
  non-finiteness does not arise for them.
* The fundamentals snapshot's monetary fields are Python `Decimal` in the
  source, held in pandas object columns; `shares_outstanding` is `int`,
  an int64 column that the left-merge upcasts to float64 as soon as any
  price row misses the snapshot's (minimum) date, i.e. on every frame
  with two distinct dates. The embedding records the observable dtype
  effects: mixed float64/Decimal arithmetic raises `TypeError` — the
  enterprise-value sum always, and the BVPS division on an upcast
  frame — while on an int64 shares column the BVPS division is Decimal
  by int, where only a zero divisor raises, as `decimal.DivisionByZero`
  (the `np.errstate` guard in the source only silences float warnings).
  Null cells never reach those operators because pandas masks NA entries
  before applying an element-wise object op (`masked_arith_op`).
* Fallible code returns `Except PipeErr`; a `pd.DataFrame([])` built from
  an empty record list has no columns at all, so any column access on it
  raises `KeyError`.
-/

namespace FundScreener

/-- models.py `PriceBar`. `open` is a Lean keyword, hence the field name
`open_`. The pydantic high ≥ low validator is not baked into this type:
`process_data` re-validates every computed row itself and that
re-validation step is the object of several claims, so the pipeline is
modelled on arbitrary rows. -/
structure PriceBar where
  date : ℕ
  open_ : ℚ
  high : ℚ
  low : ℚ
  close : ℚ
  volume : Option ℤ
deriving DecidableEq

/-- models.py `RawFundamentals`: one sparse snapshot, every field
optional. Monetary fields are `Decimal` in the source, shares an `int`. -/
structure RawFundamentals where
  total_shareholder_equity : Option ℚ
  shares_outstanding : Option ℤ
  total_debt : Option ℚ
  cash_and_short_term_investments : Option ℚ
  book_value : Option ℚ
  enterprise_value : Option ℚ
  currency : Option String
  as_of : Option ℕ
  source : Option String
deriving DecidableEq

/-- models.py `RawData`. -/
structure RawData where
  ticker : String
  prices : List PriceBar
  fundamentals : Option RawFundamentals
deriving DecidableEq

/-- models.py `DailyMetrics`: one validated output row. -/
structure DailyMetrics where
  ticker : String
  date : ℕ
  open_ : ℚ
  high : ℚ
  low : ℚ
  close : ℚ
  volume : Option ℤ
  sma_50 : Option ℚ
  sma_200 : Option ℚ
  high_52w : Option ℚ
  pct_from_52w_high : Option ℚ
  book_value_per_share : Option ℚ
  price_to_book : Option ℚ
  enterprise_value : Option ℚ
deriving DecidableEq

/-- Errors the pipeline can raise (processor.py). `keyError` is the
pandas `KeyError` on a missing column, `divisionByZero` the
`decimal.DivisionByZero` from dividing a non-null `Decimal` equity by an
int64 zero, `typeError` the `TypeError` from adding a float64 market-cap
column to an object column of `Decimal`s. -/
inductive PipeErr where
  | keyError : String → PipeErr
  | divisionByZero : PipeErr
  | typeError : PipeErr
deriving DecidableEq

deriving instance DecidableEq for Except

/-! ## processor.py `_compute_indicators` (lines 14-24)

`df.sort_values("date")`, then four rolling columns. A pandas
`rolling(window=w, min_periods=m)` statistic at row `i` covers the
trailing `min (i+1) w` rows and is non-null iff that count is at least
`m` (the inputs `close` and `high` are never NaN). -/

/-- Ordering used by `sort_values("date")` (ascending). -/
def dateLe (a b : PriceBar) : Prop := a.date ≤ b.date

instance : DecidableRel dateLe := fun a b => Nat.decLe a.date b.date

instance : IsTotal PriceBar dateLe := ⟨fun a b => Nat.le_total a.date b.date⟩

instance : IsTrans PriceBar dateLe := ⟨fun _ _ _ h1 h2 => Nat.le_trans h1 h2⟩

/-- processor.py line 15: `df.sort_values("date")`. -/
def sortPrices (rows : List PriceBar) : List PriceBar := List.insertionSort dateLe rows

/-- The trailing window of size at most `w` ending at position `i`. -/
def windowAt (w : ℕ) (xs : List ℚ) (i : ℕ) : List ℚ := (xs.take (i + 1)).drop (i + 1 - w)

/-- `rolling(window=w, min_periods=m).mean()` at position `i`. -/
def rollingMeanAt (w m : ℕ) (xs : List ℚ) (i : ℕ) : Option ℚ :=
  if m ≤ min (i + 1) w then some ((windowAt w xs i).sum / ((windowAt w xs i).length : ℚ))
  else none

/-- Maximum of a list of rationals (`none` on the empty list). -/
def listMax : List ℚ → Option ℚ
  | [] => none
  | x :: xs =>
    some (match listMax xs with
      | none => x
      | some m => max x m)

/-- `rolling(window=w, min_periods=m).max()` at position `i`. -/
def rollingMaxAt (w m : ℕ) (xs : List ℚ) (i : ℕ) : Option ℚ :=
  if m ≤ min (i + 1) w then listMax (windowAt w xs i) else none

/-- One row of the indicator table (price columns plus the four computed
columns of `_compute_indicators`; the volume column rides along in the
DataFrame and is handled by `process_data` below). -/
structure IndRow where
  date : ℕ
  open_ : ℚ
  high : ℚ
  low : ℚ
  close : ℚ
  sma_50 : Option ℚ
  sma_200 : Option ℚ
  high_52w : Option ℚ
  pct_from_52w_high : Option ℚ
deriving DecidableEq

/-- Row `i` of `_compute_indicators`: `cs`/`hs` are the close/high
columns of the sorted frame, `b` its row `i`.
`pct_from_52w_high = np.where(high_52w.notna(), (close/high_52w - 1)*100, nan)`. -/
def mkIndRow (cs hs : List ℚ) (i : ℕ) (b : PriceBar) : IndRow :=
  { date := b.date, open_ := b.open_, high := b.high, low := b.low, close := b.close
    sma_50 := rollingMeanAt 50 10 cs i
    sma_200 := rollingMeanAt 200 20 cs i
    high_52w := rollingMaxAt 252 20 hs i
    pct_from_52w_high :=
      match rollingMaxAt 252 20 hs i with
      | some h => some ((b.close / h - 1) * 100)
      | none => none }

/-- Builds the indicator rows, indexing from `i`. -/
def indRowsFrom (cs hs : List ℚ) : ℕ → List PriceBar → List IndRow
  | _, [] => []
  | i, b :: rest => mkIndRow cs hs i b :: indRowsFrom cs hs (i + 1) rest

/-- processor.py `_compute_indicators` (sort by date, then the four
rolling columns). -/
def compute_indicators (rows : List PriceBar) : List IndRow :=
  indRowsFrom ((sortPrices rows).map fun b => b.close)
    ((sortPrices rows).map fun b => b.high) 0 (sortPrices rows)

/-! ## src/signals.py -/

/-- Input row for the crossover detectors: the `date`, `sma_50`,
`sma_200` columns of the processed table. -/
structure SigRow where
  date : ℕ
  sma_50 : Option ℚ
  sma_200 : Option ℚ
deriving DecidableEq

/-- signals.py line 20: `(s50 > s200) & (s50.shift(1) <= s200.shift(1))`
at row `i`. `shift(1)` makes row 0's predecessor NaN, and any float
comparison with NaN is False, as is the conjunction (`cond.fillna(False)`
is then the identity). -/
def goldenCondAt (rows : List SigRow) (i : ℕ) : Bool :=
  if i = 0 then false
  else
    match rows.get? i, rows.get? (i - 1) with
    | some r, some p =>
      match r.sma_50, r.sma_200, p.sma_50, p.sma_200 with
      | some a, some b, some c, some d => decide (b < a) && decide (c ≤ d)
      | _, _, _, _ => false
    | _, _ => false

/-- signals.py line 28: `(s50 < s200) & (s50.shift(1) >= s200.shift(1))`
at row `i`. -/
def deathCondAt (rows : List SigRow) (i : ℕ) : Bool :=
  if i = 0 then false
  else
    match rows.get? i, rows.get? (i - 1) with
    | some r, some p =>
      match r.sma_50, r.sma_200, p.sma_50, p.sma_200 with
      | some a, some b, some c, some d => decide (a < b) && decide (d ≤ c)
      | _, _, _, _ => false
    | _, _ => false

/-- signals.py `detect_golden_crossover`: the dates of the rows where the
golden condition holds, in table order. -/
def detect_golden_crossover (rows : List SigRow) : List ℕ :=
  (List.range rows.length).filterMap fun i =>
    if goldenCondAt rows i then (rows.get? i).map fun r => r.date else none

/-- signals.py `detect_death_crossover`. -/
def detect_death_crossover (rows : List SigRow) : List ℕ :=
  (List.range rows.length).filterMap fun i =>
    if deathCondAt rows i then (rows.get? i).map fun r => r.date else none

/-! ## processor.py `_compute_fundamentals` (lines 27-60)

After the as-of merge (`merge` on the minimum date, `sort_values` then
`ffill`) every row of the frame carries the same snapshot values, so the
per-run fundamentals are a single optional record. When no snapshot was
supplied the frame simply has no fundamentals columns.

The merge also fixes the dtype of `shares_outstanding`: the one-row
snapshot frame holds it as int64 (when supplied), and the left-merge
writes a NaN hole into every price row whose date is not the minimum
date, which upcasts the column to float64; `ffill` fills the holes but
the dtype stays float64. The column remains int64 exactly when every
price row carries the one merge date — in particular on a one-row
frame. The `Decimal` object columns are unaffected by NaN holes. -/

/-- Whether the merged frame's `shares_outstanding` column was upcast to
float64 by the left-merge: true exactly when some price row has a date
different from the others (equivalently, from the minimum date), so
that a NaN hole appears in the int64 column. -/
def sharesUpcast (rows : List PriceBar) : Bool :=
  match rows with
  | [] => false
  | b :: rest => rest.any fun x => x.date ≠ b.date

/-- One row of the three derived fundamentals columns. -/
structure FundRow where
  book_value_per_share : Option ℚ
  price_to_book : Option ℚ
  enterprise_value : Option ℚ
deriving DecidableEq

/-- The BVPS cell produced by
`np.where(shares > 0, (equity / shares).astype(float), np.nan)`
in the non-crashing cases: a null equity or a null shares cell is
masked to NaN before the division, and a non-positive shares count
selects the NaN branch of `np.where`. On an int64 (non-upcast) shares
column a positive count divides the Decimal equity by an int. On an
upcast (float64) column, equity and shares both present always raises
(see `bvpsCrashes`), so the only cases that reach a value have a null
operand and the cell is NaN. -/
def bvpsValue (f : RawFundamentals) (upcast : Bool) : Option ℚ :=
  match f.total_shareholder_equity, f.shares_outstanding with
  | some e, some s =>
    if upcast then none
    else if 0 < s then some (e / (s : ℚ)) else none
  | _, _ => none

/-- True when the eagerly evaluated `(equity / shares)` raises. On an
upcast (float64) shares column, `Decimal / float` is a `TypeError` for
every pair of non-null cells (pandas re-applies the element-wise op on
the non-NA entries, and the decimal module rejects floats). On an int64
shares column, `Decimal / int` is well-typed and only a zero divisor
raises, as `decimal.DivisionByZero`. A null equity or null shares cell
is masked before the op and never raises. -/
def bvpsCrashes (f : RawFundamentals) (upcast : Bool) : Bool :=
  f.total_shareholder_equity.isSome &&
    (if upcast then f.shares_outstanding.isSome else f.shares_outstanding == some 0)

/-- True when the enterprise-value fallback
`market_cap + total_debt - cash` raises `TypeError`: the fallback runs
(no direct figure), `market_cap = shares * close` is a real float64
column (shares int64 or upcast float64, non-null after the ffill
either way), and `total_debt` holds non-null `Decimal`s, so the element-wise
float + Decimal addition is applied and fails. In every non-crashing
fallback case the sum is NaN throughout (a null shares makes market cap
all-NaN; a null debt makes the first sum all-NaN; NaN then propagates
through the remaining terms), so the fallback never produces a number. -/
def evCrashes (f : RawFundamentals) : Bool :=
  f.enterprise_value.isNone && f.shares_outstanding.isSome && f.total_debt.isSome

/-- The price-to-book cell:
`np.where(bvps.notna() & (bvps != 0), close / bvps, np.nan)`
(pure float64 arithmetic, never raises). -/
def p2bValue (bvps : Option ℚ) (close : ℚ) : Option ℚ :=
  match bvps with
  | some b => if b ≠ 0 then some (close / b) else none
  | none => none

/-- processor.py `_compute_fundamentals`, as a function of the optional
snapshot and the (sorted, merged) price rows — one output row per price
row. With no snapshot the frame has no equity/shares columns, so the
code falls back to `df.get("book_value", NaN-series)`; that column is
also absent then, leaving every derived cell null. With a snapshot the
columns always exist (pydantic `model_dump` emits every field), so the
direct `book_value` field is never consulted. The BVPS division is
evaluated eagerly (line 34) before the enterprise-value fallback
(line 58), so its error wins; on an empty frame no element-wise op is
ever applied and nothing raises. -/
def compute_fundamentals (fund : Option RawFundamentals) (rows : List PriceBar) :
    Except PipeErr (List FundRow) :=
  match fund with
  | none => .ok (rows.map fun _ => ⟨none, none, none⟩)
  | some f =>
    if rows.isEmpty then .ok []
    else if bvpsCrashes f (sharesUpcast rows) then
      .error (if sharesUpcast rows then .typeError else .divisionByZero)
    else if evCrashes f then .error .typeError
    else
      .ok (rows.map fun b =>
        ⟨bvpsValue f (sharesUpcast rows), p2bValue (bvpsValue f (sharesUpcast rows)) b.close,
          f.enterprise_value⟩)

/-! ## processor.py `process_data` (lines 63-99) -/

/-- A volume cell of the merged frame as seen by the pydantic row
validation. `pd.DataFrame` of the price records makes the volume column
float64 with NaN holes as soon as any bar has a volume and at least one
does not; only an all-None column stays an object column whose `None`
round-trips to pydantic unchanged. -/
inductive VolCell where
  | null : VolCell
  | nan : VolCell
  | val : ℤ → VolCell
deriving DecidableEq

/-- Whether a cell is a float NaN. -/
def VolCell.isNan : VolCell → Bool
  | .nan => true
  | _ => false

/-- The value pydantic receives for a kept row. -/
def VolCell.toOption : VolCell → Option ℤ
  | .val v => some v
  | _ => none

/-- Whether any input bar carries a volume (decides the column dtype). -/
def anyVolume (rows : List PriceBar) : Bool := rows.any fun b => b.volume.isSome

/-- Last non-null volume of a list of bars, the value `ffill` leaves in
place. -/
def lastSomeVol (l : List PriceBar) : Option ℤ := (l.filterMap fun b => b.volume).getLast?

/-- The volume cell at sorted position `i` (whose bar is `b`). When a
snapshot is present, processor.py line 81 runs
`merged.sort_values("date").ffill()`, which forward-fills the NaN holes
of a float64 volume column from earlier sorted rows; without a snapshot
no `ffill` runs and each row keeps its own cell. An all-None object
column is left alone by `ffill` either way. -/
def volCellAt (fundPresent : Bool) (rows sorted : List PriceBar) (i : ℕ) (b : PriceBar) :
    VolCell :=
  if anyVolume rows then
    if fundPresent then
      match lastSomeVol (sorted.take (i + 1)) with
      | some v => .val v
      | none => .nan
    else
      match b.volume with
      | some v => .val v
      | none => .nan
  else .null

/-- A fully merged row just before the pydantic validation loop. -/
structure MRow where
  ticker : String
  date : ℕ
  open_ : ℚ
  high : ℚ
  low : ℚ
  close : ℚ
  volume : VolCell
  sma_50 : Option ℚ
  sma_200 : Option ℚ
  high_52w : Option ℚ
  pct_from_52w_high : Option ℚ
  book_value_per_share : Option ℚ
  price_to_book : Option ℚ
  enterprise_value : Option ℚ
deriving DecidableEq

/-- Whether `DailyMetrics(**row)` succeeds: the model validator rejects
`high < low`, and a float NaN volume fails the `Optional[int]` field
validation (`int(nan)` is not a valid integer). All other fields always
validate: the required floats are finite rationals here and every other
column is an optional float. -/
def rowValid (r : MRow) : Bool := !(decide (r.high < r.low)) && !r.volume.isNan

/-- The `DailyMetrics` record a kept row turns into. -/
def dmOfRow (r : MRow) : DailyMetrics :=
  { ticker := r.ticker, date := r.date, open_ := r.open_, high := r.high, low := r.low
    close := r.close, volume := r.volume.toOption, sma_50 := r.sma_50, sma_200 := r.sma_200
    high_52w := r.high_52w, pct_from_52w_high := r.pct_from_52w_high
    book_value_per_share := r.book_value_per_share, price_to_book := r.price_to_book
    enterprise_value := r.enterprise_value }

/-- processor.py lines 90-97: the per-row try/except loop. Returns the
kept records and one warning message per dropped row; a failing row is
skipped, never fatal. -/
def validate_rows : List MRow → List DailyMetrics × List String
  | [] => ([], [])
  | r :: rs =>
    let p := validate_rows rs
    if rowValid r then (dmOfRow r :: p.1, p.2)
    else (p.1, ("Validation error on date=" ++ toString r.date) :: p.2)

/-- Zips the indicator rows with the fundamentals rows and the volume
cells into merged rows (positions counted from `i`). -/
def build_rows (tk : String) (vol : ℕ → VolCell) :
    List IndRow → List FundRow → ℕ → List MRow
  | [], _, _ => []
  | _ :: _, [], _ => []
  | ir :: irs, fr :: frs, i =>
    { ticker := tk, date := ir.date, open_ := ir.open_, high := ir.high, low := ir.low
      close := ir.close, volume := vol i, sma_50 := ir.sma_50, sma_200 := ir.sma_200
      high_52w := ir.high_52w, pct_from_52w_high := ir.pct_from_52w_high
      book_value_per_share := fr.book_value_per_share, price_to_book := fr.price_to_book
      enterprise_value := fr.enterprise_value } :: build_rows tk vol irs frs (i + 1)

/-- processor.py `process_data`. On an empty price list,
`pd.DataFrame([])` has no columns, so the very first column access
(`prices["date"].min()` with a snapshot, `sort_values("date")` without)
raises `KeyError`. Otherwise: merge the snapshot (constant across rows
after the sort + ffill), compute indicators on the sorted frame, derive
the fundamentals columns (which can raise, see above), and validate the
rows, dropping failures with a warning. -/
def process_data (raw : RawData) : Except PipeErr (List DailyMetrics) :=
  if raw.prices.isEmpty then .error (.keyError "date")
  else
    match compute_fundamentals raw.fundamentals (sortPrices raw.prices) with
    | .error e => .error e
    | .ok fcols =>
      let s := sortPrices raw.prices
      let vol := fun i =>
        match s.get? i with
        | some b => volCellAt raw.fundamentals.isSome raw.prices s i b
        | none => VolCell.null
      .ok (validate_rows (build_rows raw.ticker vol (compute_indicators raw.prices) fcols 0)).1


/-! ## Basic facts about the embedding -/

theorem sortPrices_perm (rows : List PriceBar) : List.Perm (sortPrices rows) rows :=
  List.perm_insertionSort dateLe rows

theorem sortPrices_length (rows : List PriceBar) : (sortPrices rows).length = rows.length :=
  (sortPrices_perm rows).length_eq

theorem sortPrices_sorted (rows : List PriceBar) : List.Sorted dateLe (sortPrices rows) :=
  List.sorted_insertionSort dateLe rows

theorem indRowsFrom_get? (cs hs : List ℚ) :
    ∀ (l : List PriceBar) (k j : ℕ),
      (indRowsFrom cs hs k l).get? j = (l.get? j).map fun b => mkIndRow cs hs (k + j) b
  | [], k, j => by simp [indRowsFrom]
  | b :: rest, k, 0 => by simp [indRowsFrom]
  | b :: rest, k, j + 1 => by
    have ih := indRowsFrom_get? cs hs rest (k + 1) j
    have hkj : k + 1 + j = k + (j + 1) := by omega
    simp only [indRowsFrom, List.get?_cons_succ, ih, hkj]

theorem compute_indicators_get? (rows : List PriceBar) (i : ℕ) :
    (compute_indicators rows).get? i =
      ((sortPrices rows).get? i).map fun b =>
        mkIndRow ((sortPrices rows).map fun x => x.close)
          ((sortPrices rows).map fun x => x.high) i b := by
  simpa using indRowsFrom_get? _ _ (sortPrices rows) 0 i

theorem indRowsFrom_map_close (cs hs : List ℚ) :
    ∀ (l : List PriceBar) (k : ℕ),
      (indRowsFrom cs hs k l).map (fun r => r.close) = l.map fun b => b.close
  | [], _ => rfl
  | b :: rest, k => by
    simp [indRowsFrom, mkIndRow, indRowsFrom_map_close cs hs rest (k + 1)]

theorem indRowsFrom_map_date (cs hs : List ℚ) :
    ∀ (l : List PriceBar) (k : ℕ),
      (indRowsFrom cs hs k l).map (fun r => r.date) = l.map fun b => b.date
  | [], _ => rfl
  | b :: rest, k => by
    simp [indRowsFrom, mkIndRow, indRowsFrom_map_date cs hs rest (k + 1)]

theorem compute_indicators_map_close (rows : List PriceBar) :
    (compute_indicators rows).map (fun r => r.close) = (sortPrices rows).map fun b => b.close :=
  indRowsFrom_map_close _ _ _ 0

theorem indRowsFrom_length (cs hs : List ℚ) :
    ∀ (l : List PriceBar) (k : ℕ), (indRowsFrom cs hs k l).length = l.length
  | [], _ => rfl
  | b :: rest, k => by
    simp [indRowsFrom, indRowsFrom_length cs hs rest (k + 1)]

theorem compute_indicators_length (rows : List PriceBar) :
    (compute_indicators rows).length = rows.length := by
  unfold compute_indicators
  rw [indRowsFrom_length, sortPrices_length]

theorem windowAt_length (w : ℕ) (xs : List ℚ) (i : ℕ) (h : i < xs.length) :
    (windowAt w xs i).length = min (i + 1) w := by
  simp only [windowAt, List.length_drop, List.length_take]
  omega

theorem get?_lt_of_some {α : Type} {l : List α} {i : ℕ} {a : α} (h : l.get? i = some a) :
    i < l.length := by
  by_contra hc
  rw [List.get?_eq_none.mpr (by omega)] at h
  cases h


/-! ## Crossover detection lemmas -/

/-- The golden-cross condition as the specification words it: a row with
a predecessor, all four moving-average cells non-null, the fast average
strictly above the slow one now and not above it before. -/
def goldenSpec (rows : List SigRow) (i : ℕ) : Prop :=
  1 ≤ i ∧ ∃ r p a b c d, rows.get? i = some r ∧ rows.get? (i - 1) = some p ∧
    r.sma_50 = some a ∧ r.sma_200 = some b ∧ p.sma_50 = some c ∧ p.sma_200 = some d ∧
    b < a ∧ c ≤ d

/-- The death-cross condition as the specification words it. -/
def deathSpec (rows : List SigRow) (i : ℕ) : Prop :=
  1 ≤ i ∧ ∃ r p a b c d, rows.get? i = some r ∧ rows.get? (i - 1) = some p ∧
    r.sma_50 = some a ∧ r.sma_200 = some b ∧ p.sma_50 = some c ∧ p.sma_200 = some d ∧
    a < b ∧ d ≤ c

theorem goldenCondAt_iff (rows : List SigRow) (i : ℕ) :
    goldenCondAt rows i = true ↔ goldenSpec rows i := by
  constructor
  · intro hcond
    unfold goldenCondAt at hcond
    split at hcond
    · simp at hcond
    next hi =>
      split at hcond
      next r p h1 h2 =>
        split at hcond
        next a b c d h3 h4 h5 h6 =>
          simp only [Bool.and_eq_true, decide_eq_true_eq] at hcond
          exact ⟨Nat.one_le_iff_ne_zero.mpr hi, r, p, a, b, c, d, h1, h2, h3, h4, h5, h6,
            hcond.1, hcond.2⟩
        next => simp at hcond
      next => simp at hcond
  · rintro ⟨hi, r, p, a, b, c, d, h1, h2, h3, h4, h5, h6, hba, hcd⟩
    unfold goldenCondAt
    rw [if_neg (by omega), h1, h2]
    simp [h3, h4, h5, h6, hba, hcd]

theorem deathCondAt_iff (rows : List SigRow) (i : ℕ) :
    deathCondAt rows i = true ↔ deathSpec rows i := by
  constructor
  · intro hcond
    unfold deathCondAt at hcond
    split at hcond
    · simp at hcond
    next hi =>
      split at hcond
      next r p h1 h2 =>
        split at hcond
        next a b c d h3 h4 h5 h6 =>
          simp only [Bool.and_eq_true, decide_eq_true_eq] at hcond
          exact ⟨Nat.one_le_iff_ne_zero.mpr hi, r, p, a, b, c, d, h1, h2, h3, h4, h5, h6,
            hcond.1, hcond.2⟩
        next => simp at hcond
      next => simp at hcond
  · rintro ⟨hi, r, p, a, b, c, d, h1, h2, h3, h4, h5, h6, hab, hdc⟩
    unfold deathCondAt
    rw [if_neg (by omega), h1, h2]
    simp [h3, h4, h5, h6, hab, hdc]

theorem filterMap_ite_eq {α β : Type} (p : α → Bool) (f : α → Option β) :
    ∀ l : List α, (l.filterMap fun a => if p a then f a else none) = (l.filter p).filterMap f
  | [] => rfl
  | a :: l => by
    by_cases h : p a <;>
      simp [List.filterMap_cons, List.filter_cons, h, filterMap_ite_eq p f l]

theorem mem_detect_golden (rows : List SigRow) (d : ℕ) :
    d ∈ detect_golden_crossover rows ↔
      ∃ i r, goldenCondAt rows i = true ∧ rows.get? i = some r ∧ r.date = d := by
  unfold detect_golden_crossover
  simp only [List.mem_filterMap, List.mem_range]
  constructor
  · rintro ⟨i, hi, hval⟩
    split at hval
    next hc =>
      obtain ⟨r, h1, h2⟩ := Option.map_eq_some'.mp hval
      exact ⟨i, r, hc, h1, h2⟩
    next => simp at hval
  · rintro ⟨i, r, hc, h1, h2⟩
    refine ⟨i, get?_lt_of_some h1, ?_⟩
    rw [if_pos hc, h1]
    simp [h2]

theorem mem_detect_death (rows : List SigRow) (d : ℕ) :
    d ∈ detect_death_crossover rows ↔
      ∃ i r, deathCondAt rows i = true ∧ rows.get? i = some r ∧ r.date = d := by
  unfold detect_death_crossover
  simp only [List.mem_filterMap, List.mem_range]
  constructor
  · rintro ⟨i, hi, hval⟩
    split at hval
    next hc =>
      obtain ⟨r, h1, h2⟩ := Option.map_eq_some'.mp hval
      exact ⟨i, r, hc, h1, h2⟩
    next => simp at hval
  · rintro ⟨i, r, hc, h1, h2⟩
    refine ⟨i, get?_lt_of_some h1, ?_⟩
    rw [if_pos hc, h1]
    simp [h2]

theorem golden_death_not_both (rows : List SigRow) (i : ℕ)
    (hg : goldenCondAt rows i = true) (hd : deathCondAt rows i = true) : False := by
  obtain ⟨-, r, p, a, b, c, d, h1, h2, h3, h4, -, -, hba, -⟩ := (goldenCondAt_iff rows i).mp hg
  obtain ⟨-, r2, p2, a2, b2, c2, d2, h12, h22, h32, h42, -, -, hab2, -⟩ :=
    (deathCondAt_iff rows i).mp hd
  rw [h1] at h12
  injection h12 with h12
  subst h12
  rw [h3] at h32
  injection h32 with h32
  rw [h4] at h42
  injection h42 with h42
  subst h32
  subst h42
  exact absurd hab2 (not_lt.mpr (le_of_lt hba))

theorem nodup_dates_get?_inj (rows : List SigRow)
    (hn : (rows.map fun r => r.date).Nodup) {i j : ℕ} {r p : SigRow}
    (hi : rows.get? i = some r) (hj : rows.get? j = some p)
    (hd : r.date = p.date) : i = j := by
  have h1 : (rows.map fun r => r.date).get? i = some r.date := by
    rw [List.get?_map, hi]
    rfl
  have h2 : (rows.map fun r => r.date).get? j = some p.date := by
    rw [List.get?_map, hj]
    rfl
  refine List.get?_inj (get?_lt_of_some h1) hn ?_
  rw [h1, h2, hd]


/-! ## Claims about the crossover detectors and the empty input -/

/-- C1 (counterexample): on an empty price sequence `process_data` does
not return an empty table without raising — it raises `KeyError`,
because `pd.DataFrame([])` has no `date` column to sort or merge on. -/
theorem claim_C1_counterexample :
    process_data ⟨"TICK", [], none⟩ = .error (.keyError "date") ∧
    process_data ⟨"TICK", [], none⟩ ≠ .ok [] := by
  refine ⟨rfl, fun h => ?_⟩
  exact Except.noConfusion h

/-- C1 (amended): for an empty input price sequence `process_data`
raises `KeyError` (with or without a fundamentals snapshot, since the
empty frame has no `date` column either to merge on or to sort by),
rather than returning an empty table; the two crossover detectors, given
an empty metrics table, do return empty event lists without error. -/
theorem claim_C1_amended :
    (∀ (tk : String) (fund : Option RawFundamentals),
      process_data ⟨tk, [], fund⟩ = .error (.keyError "date")) ∧
    detect_golden_crossover [] = [] ∧ detect_death_crossover [] = [] :=
  ⟨fun _ _ => rfl, rfl, rfl⟩

/-- C4: over any ordered (date, sma_50, sma_200) table, the golden
detector emits exactly the dates of the rows where the current fast
average strictly exceeds the slow one while the previous pair did not
(`sma_50[i] > sma_200[i]` and `sma_50[i-1] <= sma_200[i-1]`), the death
detector dually with strict below and previous not-below; row 0 is never
an event and any row with a null current or previous cell fails the
condition (the spec conditions require all four cells non-null), with
both detectors total functions (no error). -/
theorem claim_C4 (rows : List SigRow) :
    detect_golden_crossover rows =
      ((List.range rows.length).filter fun i => goldenCondAt rows i).filterMap
        (fun i => (rows.get? i).map fun r => r.date) ∧
    detect_death_crossover rows =
      ((List.range rows.length).filter fun i => deathCondAt rows i).filterMap
        (fun i => (rows.get? i).map fun r => r.date) ∧
    (∀ i, goldenCondAt rows i = true ↔ goldenSpec rows i) ∧
    (∀ i, deathCondAt rows i = true ↔ deathSpec rows i) ∧
    goldenCondAt rows 0 = false ∧ deathCondAt rows 0 = false := by
  refine ⟨filterMap_ite_eq _ _ _, filterMap_ite_eq _ _ _, goldenCondAt_iff rows,
    deathCondAt_iff rows, ?_, ?_⟩ <;> simp [goldenCondAt, deathCondAt]

/-- C5: on a table with pairwise distinct dates the two detectors never
emit the same date: a golden cross needs `sma_200[i] < sma_50[i]` and a
death cross `sma_50[i] < sma_200[i]` at the same (unique) row, which is
impossible. -/
theorem claim_C5 (rows : List SigRow) (hn : (rows.map fun r => r.date).Nodup) :
    ∀ d, d ∈ detect_golden_crossover rows → d ∉ detect_death_crossover rows := by
  intro d hg hd
  obtain ⟨i, r, hci, h1i, hdi⟩ := (mem_detect_golden rows d).mp hg
  obtain ⟨j, p, hcj, h1j, hdj⟩ := (mem_detect_death rows d).mp hd
  have hij : i = j := nodup_dates_get?_inj rows hn h1i h1j (hdi.trans hdj.symm)
  subst hij
  exact golden_death_not_both rows i hci hcj

/-- The five-row scenario from the specification (section 8):
sma_50 = [1,1,2,2,1] against sma_200 = [2,2,1,1,2] on dates 1..5. -/
def sig5 : List SigRow :=
  [⟨1, some 1, some 2⟩, ⟨2, some 1, some 2⟩, ⟨3, some 2, some 1⟩,
   ⟨4, some 2, some 1⟩, ⟨5, some 1, some 2⟩]

/-- C5 witness: on the five-row scenario the golden date 3 is not a
death date. -/
theorem claim_C5_witness : (3 : ℕ) ∉ detect_death_crossover sig5 :=
  claim_C5 sig5 (by decide) 3 (by decide)


/-! ## Claims about the rolling indicators -/

/-- C2: behaviour of `sma_50` (`rolling(window=50, min_periods=10)` on
the close column of the date-sorted table): with 10 ≤ n < 50 rows the
last row is non-null and averages exactly the n input closes; with fewer
than 10 rows every row is null; with n ≥ 50 rows, every row i ≥ 49
averages the trailing 50 closes of the table inclusive of row i; the
table has one row per input bar, so those rows exist. -/
theorem claim_C2 (rows : List PriceBar) :
    (compute_indicators rows).length = rows.length ∧
    (10 ≤ rows.length → rows.length < 50 →
      ∀ r, (compute_indicators rows).get? (rows.length - 1) = some r →
        r.sma_50 = some ((rows.map fun b => b.close).sum / (rows.length : ℚ))) ∧
    (rows.length < 10 →
      ∀ i r, (compute_indicators rows).get? i = some r → r.sma_50 = none) ∧
    (50 ≤ rows.length →
      ∀ i r, 49 ≤ i → (compute_indicators rows).get? i = some r →
        r.sma_50 = some
          (((((compute_indicators rows).map fun q => q.close).take (i + 1)).drop (i - 49)).sum
            / 50)) := by
  have hslen : (sortPrices rows).length = rows.length := sortPrices_length rows
  have hcs : ((sortPrices rows).map fun x => x.close).length = rows.length := by
    simp [hslen]
  refine ⟨compute_indicators_length rows, ?_, ?_, ?_⟩
  · intro h10 h50 r hr
    rw [compute_indicators_get?] at hr
    obtain ⟨b, hb, hmk⟩ := Option.map_eq_some'.mp hr
    subst hmk
    simp only [mkIndRow]
    unfold rollingMeanAt
    rw [if_pos (by omega)]
    have hwin : windowAt 50 ((sortPrices rows).map fun x => x.close) (rows.length - 1) =
        (sortPrices rows).map fun x => x.close := by
      unfold windowAt
      have h1 : rows.length - 1 + 1 = rows.length := by omega
      have h2 : rows.length - 50 = 0 := by omega
      rw [h1, h2, List.drop_zero, ← hcs, List.take_length]
    have hsum : ((sortPrices rows).map fun x => x.close).sum =
        (rows.map fun b => b.close).sum :=
      List.Perm.sum_eq ((sortPrices_perm rows).map _)
    rw [hwin, hsum, hcs]
  · intro h10 i r hr
    rw [compute_indicators_get?] at hr
    obtain ⟨b, hb, hmk⟩ := Option.map_eq_some'.mp hr
    subst hmk
    have hilt : i < rows.length := by
      have := get?_lt_of_some hb
      omega
    simp only [mkIndRow]
    unfold rollingMeanAt
    rw [if_neg (by omega)]
  · intro h50 i r h49 hr
    rw [compute_indicators_get?] at hr
    obtain ⟨b, hb, hmk⟩ := Option.map_eq_some'.mp hr
    subst hmk
    have hilt : i < rows.length := by
      have := get?_lt_of_some hb
      omega
    simp only [mkIndRow]
    unfold rollingMeanAt
    rw [if_pos (by omega), compute_indicators_map_close]
    have hlen50 : (windowAt 50 ((sortPrices rows).map fun x => x.close) i).length = 50 := by
      rw [windowAt_length 50 _ i (by omega)]
      omega
    have hcast : (((windowAt 50 ((sortPrices rows).map fun x => x.close) i).length : ℕ) : ℚ)
        = 50 := by
      rw [hlen50]
      norm_num
    rw [hcast]
    have hdr : i + 1 - 50 = i - 49 := by omega
    unfold windowAt
    rw [hdr]

/-- Ten bars on dates 1..10 with closes 1..10. -/
def c9xs : List PriceBar :=
  (List.range 10).map fun i => ⟨i + 1, (i : ℚ) + 1, (i : ℚ) + 2, (i : ℚ), (i : ℚ) + 1, none⟩

def c9ys : List PriceBar := c9xs ++ [⟨0, 100, 101, 99, 100, none⟩]

unseal Rat.add Rat.mul Rat.inv Rat.sub in
/-- C9 (counterexample): the no-look-ahead property fails for inputs not
sorted by date, because `_compute_indicators` re-sorts the frame first:
appending a bar with an earlier date changes the `sma_50` computed at
row 9 even though the two inputs agree on their first 10 rows. -/
theorem claim_C9_counterexample :
    c9ys.take 10 = c9xs ∧
    ((compute_indicators c9xs).get? 9).map (fun r => r.sma_50) ≠
      ((compute_indicators c9ys).get? 9).map (fun r => r.sma_50) := by
  constructor
  · decide
  · decide

/-- C9 (amended): for inputs sorted ascending by date (the indicator
engine's stated input contract) there is no look-ahead: two sorted
inputs agreeing on their first i+1 rows get identical `sma_50`,
`sma_200`, `high_52w` and `pct_from_52w_high` values at row i,
regardless of the rows past i. -/
theorem claim_C9_amended (xs ys : List PriceBar) (i : ℕ) (rx ry : IndRow)
    (hsx : List.Sorted dateLe xs) (hsy : List.Sorted dateLe ys)
    (hpre : xs.take (i + 1) = ys.take (i + 1))
    (hx : (compute_indicators xs).get? i = some rx)
    (hy : (compute_indicators ys).get? i = some ry) :
    rx.sma_50 = ry.sma_50 ∧ rx.sma_200 = ry.sma_200 ∧ rx.high_52w = ry.high_52w ∧
      rx.pct_from_52w_high = ry.pct_from_52w_high := by
  have hex : sortPrices xs = xs := List.Sorted.insertionSort_eq hsx
  have hey : sortPrices ys = ys := List.Sorted.insertionSort_eq hsy
  rw [compute_indicators_get?, hex] at hx
  rw [compute_indicators_get?, hey] at hy
  obtain ⟨bx, hbx, hmx⟩ := Option.map_eq_some'.mp hx
  obtain ⟨bY, hby, hmy⟩ := Option.map_eq_some'.mp hy
  have hbxy : bx = bY := by
    have h1 : (xs.take (i + 1)).get? i = some bx := by
      rw [List.get?_take (by omega)]
      exact hbx
    have h2 : (ys.take (i + 1)).get? i = some bY := by
      rw [List.get?_take (by omega)]
      exact hby
    rw [hpre, h2] at h1
    injection h1 with h1
    exact h1.symm
  subst hbxy
  have hwc : windowAt 50 (xs.map fun x => x.close) i = windowAt 50 (ys.map fun x => x.close) i
      ∧ windowAt 200 (xs.map fun x => x.close) i =
        windowAt 200 (ys.map fun x => x.close) i
      ∧ windowAt 252 (xs.map fun x => x.high) i =
        windowAt 252 (ys.map fun x => x.high) i := by
    refine ⟨?_, ?_, ?_⟩ <;>
      · unfold windowAt
        rw [← List.map_take, ← List.map_take, hpre]
  have hrm : rollingMaxAt 252 20 (xs.map fun x => x.high) i =
      rollingMaxAt 252 20 (ys.map fun x => x.high) i := by
    unfold rollingMaxAt
    rw [hwc.2.2]
  subst hmx
  subst hmy
  refine ⟨?_, ?_, ?_, ?_⟩ <;> simp only [mkIndRow]
  · unfold rollingMeanAt
    rw [hwc.1]
  · unfold rollingMeanAt
    rw [hwc.2.1]
  · unfold rollingMaxAt
    rw [hwc.2.2]
  · rw [hrm]

/-- A date-sorted extension of `c9xs` by one later bar, for the C9
witness. -/
def c9zs : List PriceBar := c9xs ++ [⟨11, 50, 51, 49, 50, none⟩]

unseal Rat.add Rat.mul Rat.inv Rat.sub in
/-- C9 witness: the amended no-look-ahead theorem applied to the sorted
inputs `c9xs` and its one-bar later extension `c9zs` at row 9. -/
theorem claim_C9_witness :
    ((compute_indicators c9xs).get? 9).map (fun r => r.sma_50) =
      ((compute_indicators c9zs).get? 9).map (fun r => r.sma_50) := by
  cases h1 : (compute_indicators c9xs).get? 9 with
  | none => exact absurd h1 (by decide)
  | some rx =>
    cases h2 : (compute_indicators c9zs).get? 9 with
    | none => exact absurd h2 (by decide)
    | some ry =>
      have h := claim_C9_amended c9xs c9zs 9 rx ry (by decide) (by decide) (by decide) h1 h2
      simp only [Option.map_some']
      exact congrArg some h.1

/-- Ten bars on dates 1..10 with closes 1..10, for the C2 witness. -/
def c2rows : List PriceBar :=
  (List.range 10).map fun i => ⟨i + 1, (i : ℚ) + 1, (i : ℚ) + 2, (i : ℚ), (i : ℚ) + 1, none⟩

unseal Rat.add Rat.mul Rat.inv Rat.sub in
/-- C2 witness: on the ten bars of `c2rows` (10 ≤ n < 50), `sma_50` at
the last row is the mean of all ten closes, 55/10. -/
theorem claim_C2_witness :
    ((compute_indicators c2rows).get? 9).map (fun r => r.sma_50) = some (some (11 / 2)) := by
  cases hr : (compute_indicators c2rows).get? 9 with
  | none => exact absurd hr (by decide)
  | some r =>
    have h2 := (claim_C2 c2rows).2.1 (by decide) (by decide) r hr
    simp only [Option.map_some']
    rw [h2]
    decide

/-- Snapshot with shares known (100) but debt and cash missing, for the
C6 counterexample. -/
def c6fund : RawFundamentals := ⟨none, some 100, none, none, none, none, none, none, none⟩

/-- The single price bar (close 10) of the C6 counterexample. -/
def c6bar : PriceBar := ⟨1, 10, 11, 9, 10, none⟩

/-- C6 (counterexample): with shares_outstanding = 100, close = 10 and a
missing total_debt and cash, the claim predicts an enterprise value of
100 × 10 = 1000 (missing terms as zero contribution), but the code
computes `market_cap + NaN - NaN`, whose NaN propagates: the cell is
null, not 1000. -/
theorem claim_C6_counterexample :
    compute_fundamentals (some c6fund) [c6bar] = .ok [⟨none, none, none⟩] ∧
    (none : Option ℚ) ≠ some ((100 : ℚ) * 10) := by
  exact ⟨rfl, by decide⟩

/-- C6 (amended): the enterprise-value column equals the snapshot's
direct figure when one was supplied, and is null in every other case in
which `_compute_fundamentals` returns at all — the fallback
`shares × close + total_debt - cash` never contributes a number, because
a missing shares, debt or cash cell makes the NaN propagate through the
whole sum; it is in particular null (never shares × close) when debt and
cash are missing. When shares and debt are both supplied with no direct
figure, no table is produced at all: the float64 + Decimal addition
raises `TypeError` (unless the eager BVPS division, with equity also
present, raised first — `TypeError` too on a multi-date frame whose
merge upcast the shares column, `decimal.DivisionByZero` on a
single-date int64 frame with zero shares). -/
theorem claim_C6_amended :
    (∀ (f : RawFundamentals) (rows : List PriceBar) (out : List FundRow),
      compute_fundamentals (some f) rows = .ok out →
      ∀ fr ∈ out, fr.enterprise_value = f.enterprise_value) ∧
    (∀ (rows : List PriceBar) (out : List FundRow),
      compute_fundamentals none rows = .ok out →
      ∀ fr ∈ out, fr.enterprise_value = none) ∧
    (∀ (f : RawFundamentals) (rows : List PriceBar), rows ≠ [] →
      f.enterprise_value = none → f.shares_outstanding.isSome = true →
      f.total_debt.isSome = true →
      ∀ out, compute_fundamentals (some f) rows ≠ .ok out) := by
  refine ⟨?_, ?_, ?_⟩
  · intro f rows out hok fr hfr
    simp only [compute_fundamentals] at hok
    by_cases h1 : rows.isEmpty = true
    · rw [if_pos h1] at hok
      injection hok with hok
      subst hok
      simp at hfr
    · rw [if_neg h1] at hok
      by_cases h2 : bvpsCrashes f (sharesUpcast rows) = true
      · rw [if_pos h2] at hok
        cases hok
      · rw [if_neg h2] at hok
        by_cases h3 : evCrashes f = true
        · rw [if_pos h3] at hok
          cases hok
        · rw [if_neg h3] at hok
          injection hok with hok
          subst hok
          obtain ⟨b, hb, hfr2⟩ := List.mem_map.mp hfr
          subst hfr2
          rfl
  · intro rows out hok fr hfr
    simp only [compute_fundamentals] at hok
    injection hok with hok
    subst hok
    obtain ⟨b, hb, hfr2⟩ := List.mem_map.mp hfr
    subst hfr2
    rfl
  · intro f rows hne hev hsh hdebt out hok
    have hcr : evCrashes f = true := by
      unfold evCrashes
      rw [hev, hsh, hdebt]
      rfl
    have hemp : ¬(rows.isEmpty = true) := by simpa using hne
    simp only [compute_fundamentals] at hok
    rw [if_neg hemp] at hok
    by_cases h2 : bvpsCrashes f (sharesUpcast rows) = true
    · rw [if_pos h2] at hok
      cases hok
    · rw [if_neg h2, if_pos hcr] at hok
      cases hok

/-- C6 witness: a snapshot with a direct enterprise-value figure (42)
forward-fills it as-is, even with shares (100) and debt (5) present. -/
def c6wfund : RawFundamentals :=
  ⟨some 200, some 100, some 5, some 3, none, some 42, none, none, none⟩

/-- The single price bar (close 10) of the C6 witness run. -/
def c6wbar : PriceBar := ⟨1, 10, 11, 9, 10, none⟩

unseal Rat.add Rat.mul Rat.inv Rat.sub in
/-- C6 witness: the amended theorem applied to `c6wfund` on a one-bar
frame, whose direct enterprise-value figure 42 appears unchanged in the
output row. -/
theorem claim_C6_witness :
    (⟨some 2, some 5, some 42⟩ : FundRow).enterprise_value = c6wfund.enterprise_value := by
  refine claim_C6_amended.1 c6wfund [c6wbar] [⟨some 2, some 5, some 42⟩] (by decide)
    ⟨some 2, some 5, some 42⟩ (by decide)

/-- Snapshot with shares_outstanding = 0, no equity, and a direct
per-share book value of 7, for the C7 counterexample. -/
def c7fund : RawFundamentals := ⟨none, some 0, none, none, some 7, none, none, none, none⟩

/-- The single price bar (close 10) of the C7 counterexample. -/
def c7bar : PriceBar := ⟨1, 10, 11, 9, 10, none⟩

/-- C7 (counterexample): with shares_outstanding = 0 and the snapshot's
direct book value 7 supplied, the claim predicts the fallback value 7;
the code leaves book_value_per_share null, because the fallback branch
only runs when the snapshot columns are absent entirely (a snapshot
always materialises all columns, so `df.get` returns them and the first
branch wins). The equity cell is null here, so the masked division never
fires and no error path is involved. -/
theorem claim_C7_counterexample :
    compute_fundamentals (some c7fund) [c7bar] = .ok [⟨none, none, none⟩] ∧
    (none : Option ℚ) ≠ some (7 : ℚ) := by
  exact ⟨rfl, by decide⟩

/-- C7 (amended): book_value_per_share equals
total_shareholder_equity / shares_outstanding only on a frame whose
price rows all share one date (in particular a one-row frame), where
the merge keeps the shares column int64: there it is that quotient when
the snapshot supplies both fields and shares_outstanding > 0, null when
equity is missing or shares is missing or non-positive, and equity
present with shares_outstanding = 0 raises decimal.DivisionByZero. On a
frame with two distinct dates the merge upcasts shares to float64, so
equity and shares both present raise TypeError at the eager
Decimal/float division (never a value, and never the claim's null),
and the remaining cases are null. With no snapshot every row is null:
the direct book-value fallback only runs when the equity/shares columns
are absent — i.e. with no snapshot at all — and the book_value column
is then absent too, so it never supplies a value. -/
theorem claim_C7_amended :
    (∀ (f : RawFundamentals) (rows : List PriceBar) (out : List FundRow),
      sharesUpcast rows = false →
      compute_fundamentals (some f) rows = .ok out →
      ∀ fr ∈ out, fr.book_value_per_share =
        (match f.total_shareholder_equity, f.shares_outstanding with
          | some e, some sh => if 0 < sh then some (e / (sh : ℚ)) else none
          | _, _ => none)) ∧
    (∀ (f : RawFundamentals) (rows : List PriceBar) (out : List FundRow),
      sharesUpcast rows = true →
      compute_fundamentals (some f) rows = .ok out →
      ∀ fr ∈ out, fr.book_value_per_share = none) ∧
    (∀ (rows : List PriceBar) (out : List FundRow),
      compute_fundamentals none rows = .ok out →
      ∀ fr ∈ out, fr.book_value_per_share = none) ∧
    (∀ (f : RawFundamentals) (rows : List PriceBar), rows ≠ [] →
      sharesUpcast rows = false →
      f.total_shareholder_equity.isSome = true → f.shares_outstanding = some 0 →
      compute_fundamentals (some f) rows = .error .divisionByZero) ∧
    (∀ (f : RawFundamentals) (rows : List PriceBar), rows ≠ [] →
      sharesUpcast rows = true →
      f.total_shareholder_equity.isSome = true → f.shares_outstanding.isSome = true →
      compute_fundamentals (some f) rows = .error .typeError) := by
  refine ⟨?_, ?_, ?_, ?_, ?_⟩
  · intro f rows out hupc hok fr hfr
    simp only [compute_fundamentals] at hok
    by_cases h1 : rows.isEmpty = true
    · rw [if_pos h1] at hok
      injection hok with hok
      subst hok
      simp at hfr
    · rw [if_neg h1] at hok
      by_cases h2 : bvpsCrashes f (sharesUpcast rows) = true
      · rw [if_pos h2] at hok
        cases hok
      · rw [if_neg h2] at hok
        by_cases h3 : evCrashes f = true
        · rw [if_pos h3] at hok
          cases hok
        · rw [if_neg h3] at hok
          injection hok with hok
          subst hok
          obtain ⟨b, hb, hfr2⟩ := List.mem_map.mp hfr
          subst hfr2
          show bvpsValue f (sharesUpcast rows) = _
          cases hq : f.total_shareholder_equity <;> cases hs : f.shares_outstanding <;>
            simp [bvpsValue, hupc, hq, hs]
  · intro f rows out hupc hok fr hfr
    simp only [compute_fundamentals] at hok
    by_cases h1 : rows.isEmpty = true
    · rw [if_pos h1] at hok
      injection hok with hok
      subst hok
      simp at hfr
    · rw [if_neg h1] at hok
      by_cases h2 : bvpsCrashes f (sharesUpcast rows) = true
      · rw [if_pos h2] at hok
        cases hok
      · rw [if_neg h2] at hok
        by_cases h3 : evCrashes f = true
        · rw [if_pos h3] at hok
          cases hok
        · rw [if_neg h3] at hok
          injection hok with hok
          subst hok
          obtain ⟨b, hb, hfr2⟩ := List.mem_map.mp hfr
          subst hfr2
          show bvpsValue f (sharesUpcast rows) = none
          cases hq : f.total_shareholder_equity <;> cases hs : f.shares_outstanding <;>
            simp [bvpsValue, hupc, hq, hs]
  · intro rows out hok fr hfr
    simp only [compute_fundamentals] at hok
    injection hok with hok
    subst hok
    obtain ⟨b, hb, hfr2⟩ := List.mem_map.mp hfr
    subst hfr2
    rfl
  · intro f rows hne hupc heq hsh
    have hcr : bvpsCrashes f (sharesUpcast rows) = true := by
      unfold bvpsCrashes
      rw [heq, hupc, hsh]
      rfl
    have hemp : ¬(rows.isEmpty = true) := by simpa using hne
    simp only [compute_fundamentals]
    rw [if_neg hemp, if_pos hcr, hupc]
    rfl
  · intro f rows hne hupc heq hsh
    have hcr : bvpsCrashes f (sharesUpcast rows) = true := by
      unfold bvpsCrashes
      rw [heq, hupc, hsh]
      rfl
    have hemp : ¬(rows.isEmpty = true) := by simpa using hne
    simp only [compute_fundamentals]
    rw [if_neg hemp, if_pos hcr, hupc]
    rfl

/-- Snapshot with equity 200 and shares 100 (and no debt, so the
enterprise-value fallback stays on its NaN path), for the C7 witness. -/
def c7wfund : RawFundamentals :=
  ⟨some 200, some 100, none, none, none, none, none, none, none⟩

/-- The single price bar (close 10) of the C7 witness run; a one-row
frame keeps the shares column int64. -/
def c7wbar : PriceBar := ⟨1, 10, 11, 9, 10, none⟩

unseal Rat.add Rat.mul Rat.inv Rat.sub in
/-- C7 witness: the amended theorem applied to `c7wfund` on the one-bar
(non-upcast) frame: book_value_per_share is 200/100 = 2. -/
theorem claim_C7_witness :
    (⟨some 2, some 5, none⟩ : FundRow).book_value_per_share =
      (match c7wfund.total_shareholder_equity, c7wfund.shares_outstanding with
        | some e, some sh => if 0 < sh then some (e / (sh : ℚ)) else none
        | _, _ => none) := by
  refine claim_C7_amended.1 c7wfund [c7wbar] [⟨some 2, some 5, none⟩] (by decide) (by decide)
    ⟨some 2, some 5, none⟩ (by decide)

/-! ## Claims about row validation and output ordering -/

theorem validate_rows_fst : ∀ rows : List MRow,
    (validate_rows rows).1 = (rows.filter rowValid).map dmOfRow
  | [] => rfl
  | r :: rs => by
    simp only [validate_rows, List.filter_cons]
    by_cases h : rowValid r
    · simp [h, validate_rows_fst rs]
    · simp [h, validate_rows_fst rs]

theorem validate_rows_snd : ∀ rows : List MRow,
    (validate_rows rows).2.length = (rows.filter fun r => !rowValid r).length
  | [] => rfl
  | r :: rs => by
    simp only [validate_rows, List.filter_cons]
    by_cases h : rowValid r
    · simp [h, validate_rows_snd rs]
    · simp [h, validate_rows_snd rs]

theorem build_rows_dates_sublist (tk : String) (vol : ℕ → VolCell) :
    ∀ (ind : List IndRow) (f : List FundRow) (i : ℕ),
      List.Sublist ((build_rows tk vol ind f i).map fun r => r.date)
        (ind.map fun r => r.date)
  | [], _, _ => by simp [build_rows]
  | ir :: irs, [], i => by simp [build_rows]
  | ir :: irs, fr :: frs, i => by
    simp only [build_rows, List.map_cons]
    exact List.Sublist.cons₂ _ (build_rows_dates_sublist tk vol irs frs (i + 1))

/-- C8 (amended): the pipeline validation step keeps exactly the rows
`DailyMetrics(**row)` accepts and drops the rest, one warning per
dropped row, as a total function (a per-row failure never aborts). A
row is rejected precisely when `high < low` or when its volume cell is
a float NaN — which is how a missing volume reaches pydantic whenever
any other bar carries a volume and no forward-fill covered the hole —
so a dropped row need not violate the high/low invariant, and (with
finite inputs) the non-finiteness check of the claim has no failing
rows. -/
theorem claim_C8_amended (rows : List MRow) :
    (validate_rows rows).1 = (rows.filter rowValid).map dmOfRow ∧
    (validate_rows rows).2.length = (rows.filter fun r => !rowValid r).length ∧
    (∀ r, rowValid r = (!decide (r.high < r.low) && !r.volume.isNan)) :=
  ⟨validate_rows_fst rows, validate_rows_snd rows, fun _ => rfl⟩

/-- Two valid bars, the second with a missing volume while the first has
one, for the C8 counterexample. -/
def c8raw : RawData :=
  ⟨"T", [⟨1, 10, 11, 9, 10, some 1000⟩, ⟨2, 11, 12, 10, 11, none⟩], none⟩

unseal Rat.add Rat.mul Rat.inv Rat.sub in
/-- C8 (counterexample): both bars of `c8raw` satisfy every structural
invariant (high ≥ low, all numerics finite), yet the output keeps only
the first row: the second bar's missing volume became a float NaN in the
mixed int/None volume column and fails the `Optional[int]` validation,
so "all other rows are kept" is false. -/
theorem claim_C8_counterexample :
    process_data c8raw =
      .ok [⟨"T", 1, 10, 11, 9, 10, some 1000, none, none, none, none, none, none, none⟩] ∧
    (⟨2, 11, 12, 10, 11, none⟩ : PriceBar).low ≤ (⟨2, 11, 12, 10, 11, none⟩ : PriceBar).high := by
  exact ⟨by decide, by decide⟩

/-- C10: whatever the input order of the price bars, any table
`process_data` returns is sorted ascending by date: the pipeline
re-sorts the rows (`sort_values("date")`) before computing indicators
and emitting rows, and the validation filter preserves that order. -/
theorem claim_C10 (raw : RawData) (out : List DailyMetrics) (hne : raw.prices ≠ [])
    (hok : process_data raw = .ok out) :
    List.Sorted (fun a b => a ≤ b) (out.map fun r => r.date) := by
  have hemp : ¬(raw.prices.isEmpty = true) := by simpa using hne
  unfold process_data at hok
  rw [if_neg hemp] at hok
  cases hcf : compute_fundamentals raw.fundamentals (sortPrices raw.prices) with
  | error e =>
    rw [hcf] at hok
    cases hok
  | ok fcols =>
    rw [hcf] at hok
    injection hok with hok
    subst hok
    rw [validate_rows_fst, List.map_map]
    have hsorted : List.Pairwise (fun a b : ℕ => a ≤ b)
        ((sortPrices raw.prices).map fun b => b.date) :=
      List.Pairwise.map _ (fun _ _ h => h) (sortPrices_sorted raw.prices)
    rw [← indRowsFrom_map_date ((sortPrices raw.prices).map fun x => x.close)
      ((sortPrices raw.prices).map fun x => x.high) (sortPrices raw.prices) 0] at hsorted
    exact ((hsorted.sublist (build_rows_dates_sublist _ _ _ _ _)).sublist
      (List.Sublist.map _ (List.filter_sublist _)))

/-- Two valid bars supplied in reverse date order, for the C10
witness. -/
def c10raw : RawData :=
  ⟨"T", [⟨2, 11, 12, 10, 11, some 7⟩, ⟨1, 10, 11, 9, 10, some 5⟩], none⟩

/-- The table `process_data` produces for `c10raw`, re-sorted to dates
1, 2. -/
def c10out : List DailyMetrics :=
  [⟨"T", 1, 10, 11, 9, 10, some 5, none, none, none, none, none, none, none⟩,
   ⟨"T", 2, 11, 12, 10, 11, some 7, none, none, none, none, none, none, none⟩]

unseal Rat.add Rat.mul Rat.inv Rat.sub in
/-- C10 witness: `claim_C10` applied to the reverse-ordered input
`c10raw`, whose output table `c10out` is sorted. -/
theorem claim_C10_witness :
    List.Sorted (fun a b => a ≤ b) (c10out.map fun r => r.date) :=
  claim_C10 c10raw c10out (by decide) (by decide)

end FundScreener
